import Mathlib

/-!
Verification of the SyncCinema room/session synchronization core.

The development shallowly embeds:
* `RoomManager` (rooms map, user→room index and its operations), shared by
  the standalone relay server (`src/server/src/roomManager.ts`, also inlined
  in `src/client/electron/server.cjs`);
* the relay server's socket event handlers for `create_room`, `join_room`,
  `sync_status`, `sync_seek`, `heartbeat`, `chat_message` and `disconnect`
  (`src/server/src/index.ts`, mirrored by `server.cjs`), including the
  socket.io room membership (`socket.join` / `socket.to` / `io.to`) that
  the broadcasts are routed through;
* the guest-side heartbeat listener of `useSyncVideo.ts` / `useWebRTC.ts`;
* the client-side room-id handling of `Home.handleJoinRoom`.

JavaScript `Map` objects are embedded as insertion-ordered association
lists over `String` keys, `Set<string>` as duplicate-free insertion-ordered
lists, and playback timestamps (floating-point seconds) as rationals.
`createdAt` (a wall-clock `Date`, informational only) is not modelled.
-/

namespace SyncCinema

/-! ### JavaScript `Map` / `Set` primitives -/

/-- `Map.get`: value of the first (only) binding of `key`, if any. -/
def mapGet {α : Type} : List (String × α) → String → Option α
  | [], _ => none
  | (k, v) :: rest, key => if k = key then some v else mapGet rest key

/-- `Map.set`: replace the binding of `key` in place, or append it. -/
def mapSet {α : Type} : List (String × α) → String → α → List (String × α)
  | [], key, v => [(key, v)]
  | (k, w) :: rest, key, v =>
      if k = key then (key, v) :: rest else (k, w) :: mapSet rest key v

/-- `Map.delete`: drop every binding of `key`. -/
def mapDelete {α : Type} : List (String × α) → String → List (String × α)
  | [], _ => []
  | (k, v) :: rest, key =>
      if k = key then mapDelete rest key else (k, v) :: mapDelete rest key

/-- `Set.add`: append the element unless already present. -/
def setAdd (s : List String) (x : String) : List String :=
  if x ∈ s then s else s ++ [x]

/-- `Set.delete`: remove every occurrence of the element. -/
def setDelete : List String → String → List String
  | [], _ => []
  | y :: rest, x => if y = x then setDelete rest x else y :: setDelete rest x

/-! ### Room Registry (`RoomManager`) -/

/-- A room record (`interface Room`); `createdAt` is informational wall-clock
data and is not modelled. Timestamps are seconds, embedded as `ℚ`. -/
structure Room where
  id : String
  hostId : String
  users : List String
  isPlaying : Bool
  timestamp : ℚ
  deriving DecidableEq

/-- The registry: `rooms` map and the `userToRoom` reverse index. -/
structure RoomManager where
  rooms : List (String × Room)
  userToRoom : List (String × String)
  deriving DecidableEq

/-- The empty registry (`new RoomManager()`). -/
def RoomManager.empty : RoomManager := ⟨[], []⟩

/-- `createRoom(roomId, hostId)`: build a fresh room with the host as sole
member, store it under `roomId`, and point the host's index entry at it. -/
def createRoom (rm : RoomManager) (roomId hostId : String) : RoomManager × Room :=
  let room : Room := { id := roomId, hostId := hostId, users := [hostId],
                       isPlaying := false, timestamp := 0 }
  (⟨mapSet rm.rooms roomId room, mapSet rm.userToRoom hostId roomId⟩, room)

/-- `getRoom(roomId)`. -/
def getRoom (rm : RoomManager) (roomId : String) : Option Room :=
  mapGet rm.rooms roomId

/-- `joinRoom(roomId, userId)`: returns `false` when the room is absent,
otherwise adds the user to the member set and repoints the index. -/
def joinRoom (rm : RoomManager) (roomId userId : String) : RoomManager × Bool :=
  match mapGet rm.rooms roomId with
  | none => (rm, false)
  | some room =>
      (⟨mapSet rm.rooms roomId { room with users := setAdd room.users userId },
        mapSet rm.userToRoom userId roomId⟩, true)

/-- `leaveRoom(roomId, userId)`: when the room exists, removes the user from
its member set and deletes the user's index entry. -/
def leaveRoom (rm : RoomManager) (roomId userId : String) : RoomManager :=
  match mapGet rm.rooms roomId with
  | none => rm
  | some room =>
      ⟨mapSet rm.rooms roomId { room with users := setDelete room.users userId },
       mapDelete rm.userToRoom userId⟩

/-- `deleteRoom(roomId)`: deletes the index entry of every member, then the
room itself. -/
def deleteRoom (rm : RoomManager) (roomId : String) : RoomManager :=
  match mapGet rm.rooms roomId with
  | none => rm
  | some room =>
      ⟨mapDelete rm.rooms roomId, room.users.foldl mapDelete rm.userToRoom⟩

/-- `updateRoomState(roomId, isPlaying, timestamp)`. -/
def updateRoomState (rm : RoomManager) (roomId : String) (isPlaying : Bool)
    (timestamp : ℚ) : RoomManager :=
  match mapGet rm.rooms roomId with
  | none => rm
  | some room =>
      ⟨mapSet rm.rooms roomId { room with isPlaying := isPlaying, timestamp := timestamp },
       rm.userToRoom⟩

/-- `getUserRoom(userId)`. -/
def getUserRoom (rm : RoomManager) (userId : String) : Option String :=
  mapGet rm.userToRoom userId

/-- `getRoomUserCount(roomId)`: `rooms.get(roomId)?.users.size || 0`. -/
def getRoomUserCount (rm : RoomManager) (roomId : String) : Nat :=
  ((mapGet rm.rooms roomId).map (fun room => room.users.length)).getD 0

/-- `getRoomCount()`. -/
def getRoomCount (rm : RoomManager) : Nat := rm.rooms.length

/-! ### Relay-server session protocol (`src/server/src/index.ts`) -/

/-- A relayed chat message payload (server treats it opaquely); the client's
ISO timestamp string is kept as a `String`. -/
structure ChatMsg where
  id : String
  userId : String
  username : String
  content : String
  timestamp : String
  isHost : Bool
  deriving DecidableEq

/-- Outbound socket.io events emitted by the relay server. -/
inductive Msg where
  | roomInfo (users : Nat)
  | userJoined (userId username : String)
  | syncStatus (isPlaying : Bool) (timestamp : ℚ)
  | syncSeek (timestamp : ℚ)
  | heartbeat (timestamp : ℚ) (isPlaying : Bool)
  | chatMessage (message : ChatMsg)
  | roomClosed (message : String)
  | userLeft (userId username : String)
  | errorMsg (message : String)
  deriving DecidableEq

/-- Relay-server state: the registry, the `usernames` map, and the socket.io
adapter's room membership (which `socket.join` adds to and which routes
`io.to` / `socket.to` broadcasts). -/
structure ServerState where
  manager : RoomManager
  usernames : List (String × String)
  ioRooms : List (String × List String)
  deriving DecidableEq

/-- Initial relay-server state. -/
def ServerState.initial : ServerState := ⟨RoomManager.empty, [], []⟩

/-- Sockets currently in socket.io room `roomId`. -/
def ioRoomMembers (s : ServerState) (roomId : String) : List String :=
  (mapGet s.ioRooms roomId).getD []

/-- `socket.join(roomId)`. -/
def ioJoin (s : ServerState) (roomId sock : String) : ServerState :=
  { s with ioRooms := mapSet s.ioRooms roomId (setAdd (ioRoomMembers s roomId) sock) }

/-- socket.io removes a disconnecting socket from every room before the
`disconnect` handler runs. -/
def ioLeaveAll (s : ServerState) (sock : String) : ServerState :=
  { s with ioRooms := s.ioRooms.map (fun p => (p.1, setDelete p.2 sock)) }

/-- `io.to(roomId).emit(m)`: one delivery per socket in the room. -/
def emitToRoom (s : ServerState) (roomId : String) (m : Msg) : List (String × Msg) :=
  (ioRoomMembers s roomId).map (fun c => (c, m))

/-- `socket.to(roomId).emit(m)`: the room minus the sender. -/
def emitToRoomExcept (s : ServerState) (roomId sender : String) (m : Msg) :
    List (String × Msg) :=
  (setDelete (ioRoomMembers s roomId) sender).map (fun c => (c, m))

/-- JS `username || default` on the (string) username field. -/
def orDefault (username dflt : String) : String :=
  if username = "" then dflt else username

/-- `create_room` handler: unconditional `createRoom`, `socket.join`, record
the username, then `room_info` to the whole room. -/
def handleCreateRoom (s : ServerState) (sock roomId username : String) :
    ServerState × List (String × Msg) :=
  let s₁ : ServerState :=
    { ioJoin { s with manager := (createRoom s.manager roomId sock).1 } roomId sock with
      usernames := mapSet s.usernames sock (orDefault username "主机") }
  (s₁, emitToRoom s₁ roomId (.roomInfo (getRoomUserCount s₁.manager roomId)))

/-- `join_room` handler: error to sender when the room is absent; otherwise
`joinRoom`, `socket.join`, record username, then `room_info` to the room,
`user_joined` to the room minus the sender, and a `sync_status` snapshot of
the (pre-join) stored state to the sender alone. -/
def handleJoinRoom (s : ServerState) (sock roomId username : String) :
    ServerState × List (String × Msg) :=
  match getRoom s.manager roomId with
  | none => (s, [(sock, .errorMsg "房间不存在")])
  | some room =>
      let s₁ : ServerState :=
        { ioJoin { s with manager := (joinRoom s.manager roomId sock).1 } roomId sock with
          usernames := mapSet s.usernames sock (orDefault username "访客") }
      (s₁, emitToRoom s₁ roomId (.roomInfo (getRoomUserCount s₁.manager roomId))
            ++ emitToRoomExcept s₁ roomId sock (.userJoined sock (orDefault username "访客"))
            ++ [(sock, .syncStatus room.isPlaying room.timestamp)])

/-- `sync_status` handler: host-gated state update and broadcast. -/
def handleSyncStatus (s : ServerState) (sock roomId : String) (isPlaying : Bool)
    (timestamp : ℚ) : ServerState × List (String × Msg) :=
  match getRoom s.manager roomId with
  | none => (s, [])
  | some room =>
      if room.hostId = sock then
        let s₁ : ServerState :=
          { s with manager := updateRoomState s.manager roomId isPlaying timestamp }
        (s₁, emitToRoomExcept s₁ roomId sock (.syncStatus isPlaying timestamp))
      else (s, [])

/-- `sync_seek` handler: host-gated; keeps the stored `isPlaying`, overwrites
the position. -/
def handleSyncSeek (s : ServerState) (sock roomId : String) (timestamp : ℚ) :
    ServerState × List (String × Msg) :=
  match getRoom s.manager roomId with
  | none => (s, [])
  | some room =>
      if room.hostId = sock then
        let s₁ : ServerState :=
          { s with manager := updateRoomState s.manager roomId room.isPlaying timestamp }
        (s₁, emitToRoomExcept s₁ roomId sock (.syncSeek timestamp))
      else (s, [])

/-- `heartbeat` handler: host-gated state update and broadcast. -/
def handleHeartbeat (s : ServerState) (sock roomId : String) (timestamp : ℚ)
    (isPlaying : Bool) : ServerState × List (String × Msg) :=
  match getRoom s.manager roomId with
  | none => (s, [])
  | some room =>
      if room.hostId = sock then
        let s₁ : ServerState :=
          { s with manager := updateRoomState s.manager roomId isPlaying timestamp }
        (s₁, emitToRoomExcept s₁ roomId sock (.heartbeat timestamp isPlaying))
      else (s, [])

/-- `chat_message` handler: unconditionally relays to the named room minus
the sender; no membership check, no registry access. -/
def handleChatMessage (s : ServerState) (sock roomId : String) (message : ChatMsg) :
    ServerState × List (String × Msg) :=
  (s, emitToRoomExcept s roomId sock (.chatMessage message))

/-- `disconnect` handler: socket.io first drops the socket from its rooms;
the handler then leaves the registry room and either closes it (host) or
notifies the remaining members (guest), finally forgetting the username. -/
def handleDisconnect (s : ServerState) (sock : String) :
    ServerState × List (String × Msg) :=
  let s₀ := ioLeaveAll s sock
  let username := (mapGet s₀.usernames sock).getD "用户"
  match getUserRoom s₀.manager sock with
  | none => ({ s₀ with usernames := mapDelete s₀.usernames sock }, [])
  | some roomId =>
      let room? := getRoom s₀.manager roomId
      let s₁ : ServerState := { s₀ with manager := leaveRoom s₀.manager roomId sock }
      match room? with
      | some room =>
          if room.hostId = sock then
            let msgs := emitToRoom s₁ roomId (.roomClosed "主机已离开，房间已关闭")
            ({ s₁ with manager := deleteRoom s₁.manager roomId,
                       usernames := mapDelete s₁.usernames sock }, msgs)
          else
            let msgs := emitToRoom s₁ roomId (.roomInfo (getRoomUserCount s₁.manager roomId))
                  ++ emitToRoom s₁ roomId (.userLeft sock username)
            ({ s₁ with usernames := mapDelete s₁.usernames sock }, msgs)
      | none =>
          let msgs := emitToRoom s₁ roomId (.roomInfo (getRoomUserCount s₁.manager roomId))
                ++ emitToRoom s₁ roomId (.userLeft sock username)
          ({ s₁ with usernames := mapDelete s₁.usernames sock }, msgs)

/-! ### Guest-side heartbeat listener (`useSyncVideo.ts`, `useWebRTC.ts`) -/

/-- `SYNC_THRESHOLD_SECONDS = 2`. -/
def SYNC_THRESHOLD_SECONDS : ℚ := 2

/-- The guest-side player state touched by the heartbeat listener:
`isPlaying` and the pending forced-seek target (`syncedTime`). -/
structure GuestPlayerState where
  isPlaying : Bool
  syncedTime : Option ℚ
  deriving DecidableEq

/-- The non-host `heartbeat` listener: adopt `isPlaying` unconditionally;
set `syncedTime` to the heartbeat position only when the local player's
current time differs from it by more than the threshold. -/
def guestHeartbeat (st : GuestPlayerState) (localPos : ℚ) (hbTimestamp : ℚ)
    (hbIsPlaying : Bool) : GuestPlayerState :=
  { isPlaying := hbIsPlaying,
    syncedTime :=
      if |localPos - hbTimestamp| > SYNC_THRESHOLD_SECONDS then some hbTimestamp
      else st.syncedTime }

/-! ### Client room-id entry (`Home.handleJoinRoom`) -/

/-- JS `String.prototype.trim()`: strip whitespace from both ends. -/
def jsTrim (s : String) : String :=
  ⟨(((s.data.dropWhile Char.isWhitespace).reverse).dropWhile Char.isWhitespace).reverse⟩

/-- JS `String.prototype.toUpperCase()` on the ASCII room codes in play:
character-wise uppercasing. -/
def jsToUpper (s : String) : String :=
  ⟨s.data.map Char.toUpper⟩

/-- `Home.handleJoinRoom`: rejects unless the trimmed input has exactly 6
characters, otherwise navigates to the uppercased (untrimmed) input as the
room id. Returns the room id carried by the issued join request, if any. -/
def handleJoinRoomNav (roomIdInput : String) : Option String :=
  if (jsTrim roomIdInput).length ≠ 6 then none
  else some (jsToUpper roomIdInput)

/-! ### Registry operation sequences and the consistency invariant -/

/-- A registry operation out of the create/join/leave family. -/
inductive RegOp where
  | create (roomId hostId : String)
  | join (roomId userId : String)
  | leave (roomId userId : String)
  deriving DecidableEq

/-- Apply one operation to the registry (result of the state-changing part). -/
def applyOp (rm : RoomManager) : RegOp → RoomManager
  | .create roomId hostId => (createRoom rm roomId hostId).1
  | .join roomId userId => (joinRoom rm roomId userId).1
  | .leave roomId userId => leaveRoom rm roomId userId

/-- Run a sequence of operations from a given registry. -/
def runOps (rm : RoomManager) (ops : List RegOp) : RoomManager :=
  ops.foldl applyOp rm

/-- Registry consistency: members map back to their room in the index, and
every index entry's channel is a member of the room it points to. -/
def Consistent (rm : RoomManager) : Prop :=
  (∀ r room, mapGet rm.rooms r = some room →
     ∀ u, u ∈ room.users → mapGet rm.userToRoom u = some r) ∧
  (∀ u r, mapGet rm.userToRoom u = some r →
     ∃ room, mapGet rm.rooms r = some room ∧ u ∈ room.users)

/-- Well-formed use of one operation: `create` targets a fresh room id with a
channel that is in no room, and `join`/`leave` never name a room different
from the one the channel's index entry points to. -/
def Guarded (rm : RoomManager) : RegOp → Prop
  | .create roomId hostId =>
      mapGet rm.rooms roomId = none ∧ mapGet rm.userToRoom hostId = none
  | .join roomId userId =>
      mapGet rm.userToRoom userId = none ∨ mapGet rm.userToRoom userId = some roomId
  | .leave roomId userId =>
      mapGet rm.userToRoom userId = none ∨ mapGet rm.userToRoom userId = some roomId

/-- A sequence each of whose operations is well-formed in the state it runs in. -/
inductive GuardedSeq : RoomManager → List RegOp → Prop
  | nil (rm : RoomManager) : GuardedSeq rm []
  | cons (rm : RoomManager) (op : RegOp) (ops : List RegOp) :
      Guarded rm op → GuardedSeq (applyOp rm op) ops → GuardedSeq rm (op :: ops)

/-! ### Message classifiers and concrete test states -/

/-- Is this an `error` event? -/
def Msg.isError : Msg → Bool
  | .errorMsg _ => true
  | _ => false

/-- Is this a `sync_status` event? -/
def Msg.isSyncStatus : Msg → Bool
  | .syncStatus _ _ => true
  | _ => false

/-- Server state after host `h` creates room `ABC123`. -/
def sABC : ServerState :=
  (handleCreateRoom ServerState.initial "h" "ABC123" "host").1

/-- ... after guest `g` additionally joins `ABC123`. -/
def sABCg : ServerState :=
  (handleJoinRoom sABC "g" "ABC123" "guest").1

/-- ... after a second guest `g2` additionally joins `ABC123`. -/
def sABCg2 : ServerState :=
  (handleJoinRoom sABCg "g2" "ABC123" "guest2").1

/-- ... after a second host `h2` additionally creates room `XYZ789`. -/
def sTwo : ServerState :=
  (handleCreateRoom sABCg "h2" "XYZ789" "host2").1

/-- A registry with rooms `ABC123` (host `h`) and `XYZ789` (host `g`). -/
def rmTwoRooms : RoomManager :=
  (createRoom (createRoom RoomManager.empty "ABC123" "h").1 "XYZ789" "g").1

/-- A registry with room `ABC123` in a distinctive state: members `h`, `g`,
playing at position 10. -/
def rmBusy : RoomManager :=
  updateRoomState (joinRoom (createRoom RoomManager.empty "ABC123" "h").1 "ABC123" "g").1
    "ABC123" true 10

/-- A sample chat payload sent by channel `x`. -/
def chatFromX : ChatMsg :=
  { id := "m1", userId := "x", username := "mallory", content := "hi",
    timestamp := "t", isHost := false }

/-! ## Theorems -/

/-! ### Map / Set lemmas -/

@[simp] theorem mapGet_nil {α : Type} (k : String) :
    mapGet ([] : List (String × α)) k = none := rfl

@[simp] theorem mapGet_cons {α : Type} (k key : String) (v : α) (rest : List (String × α)) :
    mapGet ((k, v) :: rest) key = if k = key then some v else mapGet rest key := rfl

theorem mapGet_mapSet_self {α : Type} (m : List (String × α)) (k : String) (v : α) :
    mapGet (mapSet m k v) k = some v := by
  induction m with
  | nil => simp [mapGet, mapSet]
  | cons p rest ih =>
      obtain ⟨k', w⟩ := p
      by_cases h : k' = k <;> simp [mapSet, mapGet, h, ih]

theorem mapGet_mapSet_ne {α : Type} (m : List (String × α)) (k k' : String) (v : α)
    (h : k' ≠ k) : mapGet (mapSet m k v) k' = mapGet m k' := by
  induction m with
  | nil => simp [mapGet, mapSet, Ne.symm h]
  | cons p rest ih =>
      obtain ⟨k₀, w⟩ := p
      by_cases h0 : k₀ = k
      · subst h0
        simp [mapSet, mapGet, Ne.symm h]
      · simp only [mapSet, if_neg h0, mapGet_cons, ih]

theorem mapGet_mapDelete_self {α : Type} (m : List (String × α)) (k : String) :
    mapGet (mapDelete m k) k = none := by
  induction m with
  | nil => simp [mapDelete]
  | cons p rest ih =>
      obtain ⟨k₀, w⟩ := p
      by_cases h0 : k₀ = k <;> simp [mapDelete, h0, ih]

theorem mapGet_mapDelete_ne {α : Type} (m : List (String × α)) (k k' : String)
    (h : k' ≠ k) : mapGet (mapDelete m k) k' = mapGet m k' := by
  induction m with
  | nil => simp [mapDelete]
  | cons p rest ih =>
      obtain ⟨k₀, w⟩ := p
      by_cases h0 : k₀ = k
      · subst h0
        simp [mapDelete, mapGet, Ne.symm h, ih]
      · simp [mapDelete, h0, ih]

/-- Re-inserting the value a key already has leaves the map unchanged. -/
theorem mapSet_of_mapGet_eq {α : Type} (m : List (String × α)) (k : String) (v : α)
    (h : mapGet m k = some v) : mapSet m k v = m := by
  induction m with
  | nil => simp [mapGet] at h
  | cons p rest ih =>
      obtain ⟨k₀, w⟩ := p
      by_cases h0 : k₀ = k
      · subst h0
        simp [mapGet] at h
        simp [mapSet, h]
      · simp [mapGet, h0] at h
        simp [mapSet, h0, ih h]

/-- Deleting an absent key leaves the map unchanged. -/
theorem mapDelete_of_mapGet_eq_none {α : Type} (m : List (String × α)) (k : String)
    (h : mapGet m k = none) : mapDelete m k = m := by
  induction m with
  | nil => simp [mapDelete]
  | cons p rest ih =>
      obtain ⟨k₀, w⟩ := p
      by_cases h0 : k₀ = k
      · subst h0
        simp [mapGet] at h
      · simp [mapGet, h0] at h
        simp [mapDelete, h0, ih h]

theorem mem_setAdd (s : List String) (x y : String) :
    y ∈ setAdd s x ↔ y ∈ s ∨ y = x := by
  by_cases h : x ∈ s
  · constructor
    · intro hy
      simp [setAdd, h] at hy
      exact Or.inl hy
    · intro hy
      rcases hy with hy | rfl
      · simpa [setAdd, h] using hy
      · simp [setAdd, h]
  · simp [setAdd, h]

theorem mem_setDelete (s : List String) (x y : String) :
    y ∈ setDelete s x ↔ y ∈ s ∧ y ≠ x := by
  induction s with
  | nil => simp [setDelete]
  | cons z rest ih =>
      by_cases hz : z = x
      · subst hz
        rw [setDelete, if_pos rfl, ih]
        simp only [List.mem_cons]
        constructor
        · exact fun h => ⟨Or.inr h.1, h.2⟩
        · rintro ⟨rfl | hy, hne⟩
          · exact absurd rfl hne
          · exact ⟨hy, hne⟩
      · rw [setDelete, if_neg hz]
        simp only [List.mem_cons, ih]
        constructor
        · rintro (rfl | ⟨hy, hne⟩)
          · exact ⟨Or.inl rfl, hz⟩
          · exact ⟨Or.inr hy, hne⟩
        · rintro ⟨rfl | hy, hne⟩
          · exact Or.inl rfl
          · exact Or.inr ⟨hy, hne⟩

/-- Deleting an element that is not in the set is a no-op. -/
theorem setDelete_of_not_mem (s : List String) (x : String) (h : x ∉ s) :
    setDelete s x = s := by
  induction s with
  | nil => rfl
  | cons z rest ih =>
      simp only [List.mem_cons, not_or] at h
      have hz : z ≠ x := fun he => h.1 he.symm
      simp [setDelete, hz, ih h.2]

/-- Removing a socket from every socket.io room commutes with room lookup. -/
theorem mapGet_map_setDelete (m : List (String × List String)) (x k : String) :
    mapGet (m.map (fun p => (p.1, setDelete p.2 x))) k
      = (mapGet m k).map (fun l => setDelete l x) := by
  induction m with
  | nil => rfl
  | cons p rest ih =>
      obtain ⟨k₀, v⟩ := p
      by_cases h : k₀ = k <;> simp [mapGet, h, ih]

/-- Folding `mapDelete` over a list of keys removes exactly those keys. -/
theorem mapGet_foldl_mapDelete {α : Type} (l : List String) (m : List (String × α))
    (u : String) :
    mapGet (l.foldl mapDelete m) u = if u ∈ l then none else mapGet m u := by
  induction l generalizing m with
  | nil => simp
  | cons x rest ih =>
      rw [List.foldl_cons, ih]
      by_cases hx : u = x
      · subst hx
        by_cases hr : u ∈ rest <;> simp [hr, mapGet_mapDelete_self]
      · by_cases hr : u ∈ rest <;> simp [hx, hr, mapGet_mapDelete_ne m x u hx]

/-- `setDelete` is idempotent. -/
theorem setDelete_idem (s : List String) (x : String) :
    setDelete (setDelete s x) x = setDelete s x := by
  refine setDelete_of_not_mem _ _ ?_
  intro h
  exact ((mem_setDelete s x x).mp h).2 rfl

/-- socket.io's pre-handler room cleanup, seen through `ioRoomMembers`. -/
theorem ioRoomMembers_ioLeaveAll (s : ServerState) (x roomId : String) :
    ioRoomMembers (ioLeaveAll s x) roomId = setDelete (ioRoomMembers s roomId) x := by
  show (mapGet (s.ioRooms.map (fun p => (p.1, setDelete p.2 x))) roomId).getD []
      = setDelete ((mapGet s.ioRooms roomId).getD []) x
  rw [mapGet_map_setDelete]
  cases mapGet s.ioRooms roomId <;> simp [setDelete]

/-! ### C1: host-authority gating of sync_status / sync_seek / heartbeat -/

/-- **C1.** For a room `R` and an inbound `sync_status`, `sync_seek` or
`heartbeat` naming `R`: when the sending channel is `R`'s host, the stored
`isPlaying`/`position` are overwritten with the message's values (for
`sync_seek`, `isPlaying` keeps its stored value) and the message is
broadcast to the socket.io room minus the sender; when the sender is not
the host, the handler leaves the whole server state unchanged and sends
nothing at all — no broadcast and no error back to the sender. -/
theorem host_authority_gating (s : ServerState) (sock roomId : String)
    (b : Bool) (t : ℚ) (room : Room)
    (hroom : getRoom s.manager roomId = some room) :
    (room.hostId = sock →
      getRoom (handleSyncStatus s sock roomId b t).1.manager roomId
          = some { room with isPlaying := b, timestamp := t } ∧
      (handleSyncStatus s sock roomId b t).2
          = (setDelete (ioRoomMembers s roomId) sock).map
              (fun c => (c, Msg.syncStatus b t)) ∧
      getRoom (handleSyncSeek s sock roomId t).1.manager roomId
          = some { room with timestamp := t } ∧
      (handleSyncSeek s sock roomId t).2
          = (setDelete (ioRoomMembers s roomId) sock).map
              (fun c => (c, Msg.syncSeek t)) ∧
      getRoom (handleHeartbeat s sock roomId t b).1.manager roomId
          = some { room with isPlaying := b, timestamp := t } ∧
      (handleHeartbeat s sock roomId t b).2
          = (setDelete (ioRoomMembers s roomId) sock).map
              (fun c => (c, Msg.heartbeat t b))) ∧
    (room.hostId ≠ sock →
      handleSyncStatus s sock roomId b t = (s, []) ∧
      handleSyncSeek s sock roomId t = (s, []) ∧
      handleHeartbeat s sock roomId t b = (s, [])) := by
  have hget : mapGet s.manager.rooms roomId = some room := hroom
  constructor
  · intro hhost
    refine ⟨?_, ?_, ?_, ?_, ?_, ?_⟩ <;>
      simp [handleSyncStatus, handleSyncSeek, handleHeartbeat, getRoom, hget, hhost,
            updateRoomState, emitToRoomExcept, ioRoomMembers, mapGet_mapSet_self]
  · intro hhost
    refine ⟨?_, ?_, ?_⟩ <;>
      simp [handleSyncStatus, handleSyncSeek, handleHeartbeat, getRoom, hget, hhost]

/-- Witness for C1 on the concrete two-member room `ABC123`: host `h`'s
`sync_status` lands in the registry; guest `g`'s `heartbeat` is ignored. -/
theorem host_authority_gating_witness :
    getRoom (handleSyncStatus sABCg "h" "ABC123" true 10).1.manager "ABC123"
        = some { id := "ABC123", hostId := "h", users := ["h", "g"],
                 isPlaying := true, timestamp := 10 } ∧
    handleHeartbeat sABCg "g" "ABC123" 10 true = (sABCg, []) := by
  have hroom : getRoom sABCg.manager "ABC123"
      = some { id := "ABC123", hostId := "h", users := ["h", "g"],
               isPlaying := false, timestamp := 0 } := by decide
  constructor
  · exact ((host_authority_gating sABCg "h" "ABC123" true 10 _ hroom).1 (by decide)).1
  · exact (((host_authority_gating sABCg "g" "ABC123" true 10 _ hroom).2 (by decide)).2).2

/-! ### C2: registry consistency invariant -/

/-- The unrestricted claim fails: two `createRoom` calls with the same host
channel leave `h` a member of `ABC123` while the index maps `h` to
`XYZ789`. -/
theorem registry_consistency_cex :
    ¬ Consistent (runOps RoomManager.empty
        [RegOp.create "ABC123" "h", RegOp.create "XYZ789" "h"]) := by
  intro h
  have hmem := h.1 "ABC123"
      { id := "ABC123", hostId := "h", users := ["h"], isPlaying := false, timestamp := 0 }
      (by decide) "h" (by decide)
  rw [show mapGet (runOps RoomManager.empty
        [RegOp.create "ABC123" "h", RegOp.create "XYZ789" "h"]).userToRoom "h"
      = some "XYZ789" from by decide] at hmem
  exact absurd hmem (by decide)

/-- `createRoom` with a fresh room id and an unjoined host preserves
consistency. -/
theorem consistent_create (rm : RoomManager) (roomId hostId : String)
    (hc : Consistent rm) (hfresh : mapGet rm.rooms roomId = none)
    (hfree : mapGet rm.userToRoom hostId = none) :
    Consistent (createRoom rm roomId hostId).1 := by
  obtain ⟨h₁, h₂⟩ := hc
  constructor
  · intro r room hr u hu
    by_cases hrr : r = roomId
    · subst hrr
      rw [show (createRoom rm r hostId).1.rooms = mapSet rm.rooms r
            { id := r, hostId := hostId, users := [hostId],
              isPlaying := false, timestamp := 0 } from rfl,
          mapGet_mapSet_self] at hr
      obtain rfl := Option.some.inj hr
      simp only [List.mem_singleton] at hu
      subst hu
      exact mapGet_mapSet_self ..
    · rw [show (createRoom rm roomId hostId).1.rooms = mapSet rm.rooms roomId
            { id := roomId, hostId := hostId, users := [hostId],
              isPlaying := false, timestamp := 0 } from rfl,
          mapGet_mapSet_ne _ _ _ _ hrr] at hr
      have hidx := h₁ r room hr u hu
      have hu_ne : u ≠ hostId := by
        intro he
        rw [he, hfree] at hidx
        exact Option.noConfusion hidx
      rw [show (createRoom rm roomId hostId).1.userToRoom
            = mapSet rm.userToRoom hostId roomId from rfl,
          mapGet_mapSet_ne _ _ _ _ hu_ne]
      exact hidx
  · intro u r hu
    by_cases huh : u = hostId
    · subst huh
      rw [show (createRoom rm roomId u).1.userToRoom
            = mapSet rm.userToRoom u roomId from rfl,
          mapGet_mapSet_self] at hu
      have hr : roomId = r := Option.some.inj hu
      subst hr
      refine ⟨{ id := roomId, hostId := u, users := [u],
                isPlaying := false, timestamp := 0 }, ?_, ?_⟩
      · rw [show (createRoom rm roomId u).1.rooms = mapSet rm.rooms roomId
              { id := roomId, hostId := u, users := [u],
                isPlaying := false, timestamp := 0 } from rfl]
        exact mapGet_mapSet_self ..
      · simp
    · rw [show (createRoom rm roomId hostId).1.userToRoom
            = mapSet rm.userToRoom hostId roomId from rfl,
          mapGet_mapSet_ne _ _ _ _ huh] at hu
      obtain ⟨room, hroom, hmem⟩ := h₂ u r hu
      have hr_ne : r ≠ roomId := by
        intro he
        rw [he, hfresh] at hroom
        exact Option.noConfusion hroom
      refine ⟨room, ?_, hmem⟩
      rw [show (createRoom rm roomId hostId).1.rooms = mapSet rm.rooms roomId
            { id := roomId, hostId := hostId, users := [hostId],
              isPlaying := false, timestamp := 0 } from rfl,
          mapGet_mapSet_ne _ _ _ _ hr_ne]
      exact hroom

/-- `joinRoom` for a channel that is in no room, or already in the target
room, preserves consistency. -/
theorem consistent_join (rm : RoomManager) (roomId userId : String)
    (hc : Consistent rm)
    (hg : mapGet rm.userToRoom userId = none ∨ mapGet rm.userToRoom userId = some roomId) :
    Consistent (joinRoom rm roomId userId).1 := by
  obtain ⟨h₁, h₂⟩ := hc
  cases hfound : mapGet rm.rooms roomId with
  | none =>
      have he : (joinRoom rm roomId userId).1 = rm := by
        unfold joinRoom
        rw [hfound]
      rw [he]
      exact ⟨h₁, h₂⟩
  | some room =>
      have hj : (joinRoom rm roomId userId).1
          = ⟨mapSet rm.rooms roomId { room with users := setAdd room.users userId },
             mapSet rm.userToRoom userId roomId⟩ := by
        unfold joinRoom
        rw [hfound]
      rw [hj]
      constructor
      · intro r roomX hr u hu
        dsimp only at hr ⊢
        by_cases hrr : r = roomId
        · subst hrr
          rw [mapGet_mapSet_self] at hr
          have hXe : { room with users := setAdd room.users userId } = roomX :=
            Option.some.inj hr
          subst hXe
          rcases (mem_setAdd room.users userId u).mp hu with hu' | rfl
          · by_cases huu : u = userId
            · subst huu
              exact mapGet_mapSet_self ..
            · rw [mapGet_mapSet_ne _ _ _ _ huu]
              exact h₁ r room hfound u hu'
          · exact mapGet_mapSet_self ..
        · rw [mapGet_mapSet_ne _ _ _ _ hrr] at hr
          have hidx := h₁ r roomX hr u hu
          have huu : u ≠ userId := by
            intro he
            subst he
            rcases hg with hg | hg
            · rw [hidx] at hg
              exact Option.noConfusion hg
            · rw [hidx] at hg
              exact hrr (Option.some.inj hg)
          rw [mapGet_mapSet_ne _ _ _ _ huu]
          exact hidx
      · intro u r hu
        dsimp only at hu ⊢
        by_cases huu : u = userId
        · subst huu
          rw [mapGet_mapSet_self] at hu
          have hre : roomId = r := Option.some.inj hu
          subst hre
          exact ⟨{ room with users := setAdd room.users u }, mapGet_mapSet_self ..,
                 (mem_setAdd room.users u u).mpr (Or.inr rfl)⟩
        · rw [mapGet_mapSet_ne _ _ _ _ huu] at hu
          obtain ⟨roomY, hroomY, hmemY⟩ := h₂ u r hu
          by_cases hrr : r = roomId
          · subst hrr
            rw [hfound] at hroomY
            have hYe : room = roomY := Option.some.inj hroomY
            refine ⟨{ room with users := setAdd room.users userId },
                    mapGet_mapSet_self .., ?_⟩
            refine (mem_setAdd room.users userId u).mpr (Or.inl ?_)
            rw [hYe]
            exact hmemY
          · exact ⟨roomY, by rw [mapGet_mapSet_ne _ _ _ _ hrr]; exact hroomY, hmemY⟩

/-- `leaveRoom` for a channel that is in no room, or that names the room its
index entry points to, preserves consistency. -/
theorem consistent_leave (rm : RoomManager) (roomId userId : String)
    (hc : Consistent rm)
    (hg : mapGet rm.userToRoom userId = none ∨ mapGet rm.userToRoom userId = some roomId) :
    Consistent (leaveRoom rm roomId userId) := by
  obtain ⟨h₁, h₂⟩ := hc
  cases hfound : mapGet rm.rooms roomId with
  | none =>
      have he : leaveRoom rm roomId userId = rm := by
        unfold leaveRoom
        rw [hfound]
      rw [he]
      exact ⟨h₁, h₂⟩
  | some room =>
      have hj : leaveRoom rm roomId userId
          = ⟨mapSet rm.rooms roomId { room with users := setDelete room.users userId },
             mapDelete rm.userToRoom userId⟩ := by
        unfold leaveRoom
        rw [hfound]
      rw [hj]
      constructor
      · intro r roomX hr u hu
        dsimp only at hr ⊢
        by_cases hrr : r = roomId
        · subst hrr
          rw [mapGet_mapSet_self] at hr
          have hXe : { room with users := setDelete room.users userId } = roomX :=
            Option.some.inj hr
          subst hXe
          have hu' := (mem_setDelete room.users userId u).mp hu
          rw [mapGet_mapDelete_ne _ _ _ hu'.2]
          exact h₁ r room hfound u hu'.1
        · rw [mapGet_mapSet_ne _ _ _ _ hrr] at hr
          have hidx := h₁ r roomX hr u hu
          have huu : u ≠ userId := by
            intro he
            subst he
            rcases hg with hg | hg
            · rw [hidx] at hg
              exact Option.noConfusion hg
            · rw [hidx] at hg
              exact hrr (Option.some.inj hg)
          rw [mapGet_mapDelete_ne _ _ _ huu]
          exact hidx
      · intro u r hu
        dsimp only at hu ⊢
        have huu : u ≠ userId := by
          intro he
          subst he
          rw [mapGet_mapDelete_self] at hu
          exact Option.noConfusion hu
        rw [mapGet_mapDelete_ne _ _ _ huu] at hu
        obtain ⟨roomY, hroomY, hmemY⟩ := h₂ u r hu
        by_cases hrr : r = roomId
        · subst hrr
          rw [hfound] at hroomY
          have hYe : room = roomY := Option.some.inj hroomY
          refine ⟨{ room with users := setDelete room.users userId },
                  mapGet_mapSet_self .., ?_⟩
          refine (mem_setDelete room.users userId u).mpr ⟨?_, huu⟩
          rw [hYe]
          exact hmemY
        · exact ⟨roomY, by rw [mapGet_mapSet_ne _ _ _ _ hrr]; exact hroomY, hmemY⟩

/-- Every well-formed operation preserves consistency. -/
theorem consistent_applyOp (rm : RoomManager) (op : RegOp)
    (hc : Consistent rm) (hg : Guarded rm op) :
    Consistent (applyOp rm op) := by
  cases op with
  | create roomId hostId => exact consistent_create rm roomId hostId hc hg.1 hg.2
  | join roomId userId => exact consistent_join rm roomId userId hc hg
  | leave roomId userId => exact consistent_leave rm roomId userId hc hg

/-- Consistency is preserved along any well-formed sequence. -/
theorem consistent_runOps (rm : RoomManager) (ops : List RegOp)
    (hs : GuardedSeq rm ops) :
    Consistent rm → Consistent (runOps rm ops) := by
  induction hs with
  | nil rm => exact fun hc => hc
  | cons rm op ops hop hseq ih =>
      exact fun hc => ih (consistent_applyOp rm op hc hop)

/-- **C2 (amended).** For every sequence of create/join/leave operations from
the empty registry in which each `createRoom` targets a fresh room id with a
channel in no room, and each `joinRoom`/`leaveRoom` names either a channel
with no index entry or the very room its index entry points to, the registry
consistency invariant holds: members map back to their room in the index and
index entries point to rooms that contain their channel. (Unrestricted
sequences violate it — see the counterexample.) -/
theorem registry_consistency_of_guarded (ops : List RegOp)
    (hs : GuardedSeq RoomManager.empty ops) :
    Consistent (runOps RoomManager.empty ops) := by
  refine consistent_runOps RoomManager.empty ops hs ⟨?_, ?_⟩
  · intro r room hr u hu
    simp [RoomManager.empty, mapGet] at hr
  · intro u r hu
    simp [RoomManager.empty, mapGet] at hu

/-- Witness for C2 on a concrete guarded create/join/leave sequence. -/
theorem registry_consistency_witness :
    Consistent (runOps RoomManager.empty
      [RegOp.create "ABC123" "h", RegOp.join "ABC123" "g", RegOp.leave "ABC123" "g"]) :=
  registry_consistency_of_guarded _
    (GuardedSeq.cons _ _ _ ⟨by decide, by decide⟩
      (GuardedSeq.cons _ _ _ (Or.inl (by decide))
        (GuardedSeq.cons _ _ _ (Or.inr (by decide))
          (GuardedSeq.nil _))))

/-! ### C3: host disconnection destroys the room -/

/-- **C3.** When the host's channel disconnects from an existing room whose
socket.io membership mirrors the registry member set: the room disappears
from the registry, every former member's index entry is gone, and exactly
the remaining former members (everyone but the host) receive `room_closed`. -/
theorem host_disconnect_closes_room (s : ServerState) (roomId hostId : String)
    (room : Room)
    (hroom : getRoom s.manager roomId = some room)
    (hhost : room.hostId = hostId)
    (hindex : getUserRoom s.manager hostId = some roomId)
    (hio : ioRoomMembers s roomId = room.users) :
    getRoom (handleDisconnect s hostId).1.manager roomId = none ∧
    (∀ u, u ∈ room.users → getUserRoom (handleDisconnect s hostId).1.manager u = none) ∧
    (handleDisconnect s hostId).2
      = (setDelete room.users hostId).map
          (fun c => (c, Msg.roomClosed "主机已离开，房间已关闭")) := by
  have hmgr₀ : (ioLeaveAll s hostId).manager = s.manager := rfl
  have hrooms : mapGet s.manager.rooms roomId = some room := hroom
  have hleave : leaveRoom s.manager roomId hostId
      = ⟨mapSet s.manager.rooms roomId { room with users := setDelete room.users hostId },
         mapDelete s.manager.userToRoom hostId⟩ := by
    unfold leaveRoom
    rw [hrooms]
  have hD : handleDisconnect s hostId
      = (⟨deleteRoom (leaveRoom s.manager roomId hostId) roomId,
          mapDelete (ioLeaveAll s hostId).usernames hostId,
          (ioLeaveAll s hostId).ioRooms⟩,
         emitToRoom { ioLeaveAll s hostId with
                        manager := leaveRoom s.manager roomId hostId } roomId
           (Msg.roomClosed "主机已离开，房间已关闭")) := by
    unfold handleDisconnect
    dsimp only
    rw [hmgr₀, hindex]
    dsimp only
    rw [hroom]
    dsimp only
    rw [if_pos hhost]
  have hdel : deleteRoom (leaveRoom s.manager roomId hostId) roomId
      = ⟨mapDelete (mapSet s.manager.rooms roomId
            { room with users := setDelete room.users hostId }) roomId,
         (setDelete room.users hostId).foldl mapDelete
           (mapDelete s.manager.userToRoom hostId)⟩ := by
    rw [hleave]
    unfold deleteRoom
    rw [show mapGet (mapSet s.manager.rooms roomId
          { room with users := setDelete room.users hostId }) roomId
        = some { room with users := setDelete room.users hostId }
        from mapGet_mapSet_self ..]
  refine ⟨?_, ?_, ?_⟩
  · rw [hD]
    show mapGet (deleteRoom (leaveRoom s.manager roomId hostId) roomId).rooms roomId = none
    rw [hdel]
    exact mapGet_mapDelete_self ..
  · intro u hu
    rw [hD]
    show mapGet (deleteRoom (leaveRoom s.manager roomId hostId) roomId).userToRoom u = none
    rw [hdel]
    show mapGet ((setDelete room.users hostId).foldl mapDelete
        (mapDelete s.manager.userToRoom hostId)) u = none
    rw [mapGet_foldl_mapDelete]
    by_cases huh : u = hostId
    · subst huh
      simp [mapGet_mapDelete_self]
    · rw [if_pos ((mem_setDelete room.users hostId u).mpr ⟨hu, huh⟩)]
  · rw [hD]
    show emitToRoom { ioLeaveAll s hostId with
          manager := leaveRoom s.manager roomId hostId } roomId
        (Msg.roomClosed "主机已离开，房间已关闭")
      = (setDelete room.users hostId).map
          (fun c => (c, Msg.roomClosed "主机已离开，房间已关闭"))
    unfold emitToRoom
    rw [show ioRoomMembers { ioLeaveAll s hostId with
          manager := leaveRoom s.manager roomId hostId } roomId
        = ioRoomMembers (ioLeaveAll s hostId) roomId from rfl,
        ioRoomMembers_ioLeaveAll, hio]

/-- Witness for C3: host `h` disconnecting from the three-member room
`ABC123` removes the room, clears both guests' index entries, and sends
`room_closed` to exactly `g` and `g2`. -/
theorem host_disconnect_closes_room_witness :
    getRoom (handleDisconnect sABCg2 "h").1.manager "ABC123" = none ∧
    getUserRoom (handleDisconnect sABCg2 "h").1.manager "g" = none ∧
    getUserRoom (handleDisconnect sABCg2 "h").1.manager "g2" = none ∧
    (handleDisconnect sABCg2 "h").2
      = [("g", Msg.roomClosed "主机已离开，房间已关闭"),
         ("g2", Msg.roomClosed "主机已离开，房间已关闭")] := by
  have h := host_disconnect_closes_room sABCg2 "ABC123" "h"
      { id := "ABC123", hostId := "h", users := ["h", "g", "g2"],
        isPlaying := false, timestamp := 0 }
      (by decide) (by decide) (by decide) (by decide)
  exact ⟨h.1, h.2.1 "g" (by decide), h.2.1 "g2" (by decide), h.2.2.trans (by decide)⟩

/-! ### C4: createRoom on an existing room id -/

/-- Counterexample to C4: with room `ABC123` already registered (host `h`,
members `h`,`g`, playing at 10), `createRoom("ABC123","h2")` does not fail —
it returns a fresh room and replaces the stored room, changing `hostId`,
`members`, `isPlaying` and `position`. -/
theorem createRoom_overwrites_cex :
    getRoom rmBusy "ABC123"
        = some { id := "ABC123", hostId := "h", users := ["h", "g"],
                 isPlaying := true, timestamp := 10 } ∧
    (createRoom rmBusy "ABC123" "h2").2
        = { id := "ABC123", hostId := "h2", users := ["h2"],
            isPlaying := false, timestamp := 0 } ∧
    getRoom (createRoom rmBusy "ABC123" "h2").1 "ABC123"
        = some { id := "ABC123", hostId := "h2", users := ["h2"],
                 isPlaying := false, timestamp := 0 } := by
  decide

/-- **C4 (amended).** `createRoom(roomId, hostChannel)` never fails: it
unconditionally registers a fresh room (host as sole member, not playing,
position 0) under `roomId` — overwriting any room previously stored there —
and repoints the host's index entry; rooms under other ids and other
channels' index entries are untouched. -/
theorem createRoom_unconditional (rm : RoomManager) (roomId hostId : String) :
    (createRoom rm roomId hostId).2
        = { id := roomId, hostId := hostId, users := [hostId],
            isPlaying := false, timestamp := 0 } ∧
    getRoom (createRoom rm roomId hostId).1 roomId
        = some { id := roomId, hostId := hostId, users := [hostId],
                 isPlaying := false, timestamp := 0 } ∧
    getUserRoom (createRoom rm roomId hostId).1 hostId = some roomId ∧
    (∀ r, r ≠ roomId → getRoom (createRoom rm roomId hostId).1 r = getRoom rm r) ∧
    (∀ u, u ≠ hostId → getUserRoom (createRoom rm roomId hostId).1 u = getUserRoom rm u) := by
  refine ⟨rfl, mapGet_mapSet_self .., mapGet_mapSet_self .., ?_, ?_⟩
  · intro r hr
    exact mapGet_mapSet_ne _ _ _ _ hr
  · intro u hu
    exact mapGet_mapSet_ne _ _ _ _ hu

/-- Witness for C4 (amended) on the concrete busy registry. -/
theorem createRoom_unconditional_witness :
    getRoom (createRoom rmBusy "ABC123" "h2").1 "ABC123"
        = some { id := "ABC123", hostId := "h2", users := ["h2"],
                 isPlaying := false, timestamp := 0 } ∧
    getUserRoom (createRoom rmBusy "ABC123" "h2").1 "g" = getUserRoom rmBusy "g" :=
  ⟨(createRoom_unconditional rmBusy "ABC123" "h2").2.1,
   (createRoom_unconditional rmBusy "ABC123" "h2").2.2.2.2 "g" (by decide)⟩

/-! ### C5: no AlreadyInRoom check on create_room / join_room -/

/-- Counterexample to C5: channel `g` is already in room `ABC123`, yet its
`join_room` for `XYZ789` is not rejected: no error is sent, the registry
changes (`g` is added to `XYZ789` and its index entry repointed), and `g`
also stays in `ABC123`'s member set. -/
theorem no_already_in_room_cex :
    getUserRoom sTwo.manager "g" = some "ABC123" ∧
    getUserRoom (handleJoinRoom sTwo "g" "XYZ789" "guest").1.manager "g"
        = some "XYZ789" ∧
    ((getRoom (handleJoinRoom sTwo "g" "XYZ789" "guest").1.manager "XYZ789").map
        Room.users) = some ["h2", "g"] ∧
    ((getRoom (handleJoinRoom sTwo "g" "XYZ789" "guest").1.manager "ABC123").map
        Room.users) = some ["h", "g"] ∧
    (∀ p ∈ (handleJoinRoom sTwo "g" "XYZ789" "guest").2, p.2.isError = false) := by
  decide

/-- **C5 (amended).** The handlers perform no already-in-room check: a
`join_room` from a channel already a member of a different room proceeds as
a normal join (the channel is added to the target room, its index entry is
repointed, it remains in the old room's member set, and no error goes back
to the sender), and a `create_room` from such a channel likewise proceeds,
creating the new room while leaving the old room's record untouched. -/
theorem no_already_in_room_check (s : ServerState) (sock A B username : String)
    (roomA roomB : Room)
    (hA : getRoom s.manager A = some roomA) (_hmem : sock ∈ roomA.users)
    (hB : getRoom s.manager B = some roomB) (hne : A ≠ B) :
    (getRoom (handleJoinRoom s sock B username).1.manager A = some roomA ∧
     getUserRoom (handleJoinRoom s sock B username).1.manager sock = some B ∧
     (∃ room', getRoom (handleJoinRoom s sock B username).1.manager B = some room' ∧
        sock ∈ room'.users) ∧
     (∀ p ∈ (handleJoinRoom s sock B username).2, p.2.isError = false)) ∧
    (getRoom (handleCreateRoom s sock B username).1.manager B
        = some { id := B, hostId := sock, users := [sock],
                 isPlaying := false, timestamp := 0 } ∧
     getRoom (handleCreateRoom s sock B username).1.manager A = some roomA ∧
     (∀ p ∈ (handleCreateRoom s sock B username).2, p.2.isError = false)) := by
  have hBm : mapGet s.manager.rooms B = some roomB := hB
  have hJm : (handleJoinRoom s sock B username).1.manager
      = ⟨mapSet s.manager.rooms B { roomB with users := setAdd roomB.users sock },
         mapSet s.manager.userToRoom sock B⟩ := by
    unfold handleJoinRoom
    rw [hB]
    dsimp only
    unfold joinRoom
    rw [hBm]
    rfl
  have hCm : (handleCreateRoom s sock B username).1.manager
      = (createRoom s.manager B sock).1 := rfl
  refine ⟨⟨?_, ?_, ?_, ?_⟩, ?_, ?_, ?_⟩
  · show mapGet (handleJoinRoom s sock B username).1.manager.rooms A = some roomA
    rw [hJm]
    dsimp only
    rw [mapGet_mapSet_ne _ _ _ _ hne]
    exact hA
  · show mapGet (handleJoinRoom s sock B username).1.manager.userToRoom sock = some B
    rw [hJm]
    dsimp only
    exact mapGet_mapSet_self ..
  · refine ⟨{ roomB with users := setAdd roomB.users sock }, ?_, ?_⟩
    · show mapGet (handleJoinRoom s sock B username).1.manager.rooms B = some _
      rw [hJm]
      dsimp only
      exact mapGet_mapSet_self ..
    · exact (mem_setAdd roomB.users sock sock).mpr (Or.inr rfl)
  · unfold handleJoinRoom
    rw [hB]
    dsimp only
    intro p hp
    simp only [emitToRoom, emitToRoomExcept, List.mem_append, List.mem_map,
      List.mem_singleton] at hp
    rcases hp with (⟨c, hc, rfl⟩ | ⟨c, hc, rfl⟩) | rfl <;> rfl
  · show mapGet (handleCreateRoom s sock B username).1.manager.rooms B = some _
    rw [hCm]
    exact mapGet_mapSet_self ..
  · show mapGet (handleCreateRoom s sock B username).1.manager.rooms A = some roomA
    rw [hCm]
    show mapGet (mapSet s.manager.rooms B _) A = some roomA
    rw [mapGet_mapSet_ne _ _ _ _ hne]
    exact hA
  · unfold handleCreateRoom
    dsimp only
    intro p hp
    simp only [emitToRoom, List.mem_map] at hp
    rcases hp with ⟨c, hc, rfl⟩
    rfl

/-- Witness for C5 (amended) on the concrete two-room state. -/
theorem no_already_in_room_check_witness :
    getUserRoom (handleJoinRoom sTwo "g" "XYZ789" "guest").1.manager "g"
        = some "XYZ789" ∧
    getRoom (handleCreateRoom sTwo "g" "XYZ789" "guest").1.manager "XYZ789"
        = some { id := "XYZ789", hostId := "g", users := ["g"],
                 isPlaying := false, timestamp := 0 } := by
  have h := no_already_in_room_check sTwo "g" "ABC123" "XYZ789" "guest"
      { id := "ABC123", hostId := "h", users := ["h", "g"],
        isPlaying := false, timestamp := 0 }
      { id := "XYZ789", hostId := "h2", users := ["h2"],
        isPlaying := false, timestamp := 0 }
      (by decide) (by decide) (by decide) (by decide)
  exact ⟨h.1.2.1, h.2.1⟩

/-! ### C6: join replies with a sync_status snapshot to the joiner only -/

/-- **C6.** A successful `join_room` emits exactly one `sync_status`, it is
addressed to the joining socket, and it carries the stored
`isPlaying`/`position`; concretely, joining right after room creation yields
`isPlaying = false`, `position = 0`. -/
theorem join_sends_snapshot (s : ServerState) (sock roomId username : String)
    (room : Room) (hroom : getRoom s.manager roomId = some room) :
    ((sock, Msg.syncStatus room.isPlaying room.timestamp)
        ∈ (handleJoinRoom s sock roomId username).2 ∧
     ∀ p ∈ (handleJoinRoom s sock roomId username).2, p.2.isSyncStatus = true →
        p = (sock, Msg.syncStatus room.isPlaying room.timestamp)) ∧
    ((handleJoinRoom sABC "g" "ABC123" "guest").2.filter (fun p => p.2.isSyncStatus))
        = [("g", Msg.syncStatus false 0)] := by
  refine ⟨⟨?_, ?_⟩, by decide⟩
  · unfold handleJoinRoom
    rw [hroom]
    dsimp only
    simp
  · unfold handleJoinRoom
    rw [hroom]
    dsimp only
    intro p hp
    simp only [emitToRoom, emitToRoomExcept, List.mem_append, List.mem_map,
      List.mem_singleton] at hp
    rcases hp with (⟨c, hc, rfl⟩ | ⟨c, hc, rfl⟩) | rfl
    · intro hfalse
      exact absurd hfalse (by simp [Msg.isSyncStatus])
    · intro hfalse
      exact absurd hfalse (by simp [Msg.isSyncStatus])
    · intro htrue
      rfl

/-- Witness for C6: the guest joining the freshly created `ABC123` receives
the `{isPlaying:false, position:0}` snapshot. -/
theorem join_sends_snapshot_witness :
    ("g", Msg.syncStatus false 0) ∈ (handleJoinRoom sABC "g" "ABC123" "guest").2 := by
  have h := join_sends_snapshot sABC "g" "ABC123" "guest"
      { id := "ABC123", hostId := "h", users := ["h"], isPlaying := false, timestamp := 0 }
      (by decide)
  exact h.1.1

/-! ### C7: guest heartbeat hysteresis -/

/-- **C7.** On a heartbeat the guest adopts `isPlaying` unconditionally and
forces a seek (sets `syncedTime` to the heartbeat position) exactly when the
local position differs from it by more than the 2-second threshold;
concretely, local 100 with heartbeat 101.5 leaves the seek target untouched,
and heartbeat 103 forces a seek to 103. -/
theorem heartbeat_hysteresis (st : GuestPlayerState) (localPos hbT : ℚ) (hb : Bool) :
    (guestHeartbeat st localPos hbT hb).isPlaying = hb ∧
    (|localPos - hbT| > SYNC_THRESHOLD_SECONDS →
      (guestHeartbeat st localPos hbT hb).syncedTime = some hbT) ∧
    (¬ |localPos - hbT| > SYNC_THRESHOLD_SECONDS →
      (guestHeartbeat st localPos hbT hb).syncedTime = st.syncedTime) ∧
    guestHeartbeat st 100 (203/2) hb
        = { isPlaying := hb, syncedTime := st.syncedTime } ∧
    guestHeartbeat st 100 103 hb = { isPlaying := hb, syncedTime := some 103 } := by
  refine ⟨rfl, ?_, ?_, ?_, ?_⟩
  · intro h
    simp [guestHeartbeat, h]
  · intro h
    simp [guestHeartbeat, h]
  · have hcond : ¬ (|(100:ℚ) - 203/2| > SYNC_THRESHOLD_SECONDS) := by
      unfold SYNC_THRESHOLD_SECONDS
      norm_num [abs_le]
    simp [guestHeartbeat, hcond]
  · have hcond : |(100:ℚ) - 103| > SYNC_THRESHOLD_SECONDS := by
      unfold SYNC_THRESHOLD_SECONDS
      norm_num
    simp [guestHeartbeat, hcond]

/-- Witness for C7 at the claim's reference inputs. -/
theorem heartbeat_hysteresis_witness :
    (guestHeartbeat ⟨false, none⟩ 100 103 true).syncedTime = some 103 ∧
    (guestHeartbeat ⟨false, none⟩ 100 (203/2) true).syncedTime = none := by
  constructor
  · exact (heartbeat_hysteresis ⟨false, none⟩ 100 103 true).2.1
      (by norm_num [SYNC_THRESHOLD_SECONDS])
  · exact (heartbeat_hysteresis ⟨false, none⟩ 100 (203/2) true).2.2.1
      (by norm_num [SYNC_THRESHOLD_SECONDS, abs_le])

/-! ### C8: leaveRoom on a non-member -/

/-- Counterexample to C8: `g` is not a member of `ABC123` (it hosts
`XYZ789`), yet `leaveRoom("ABC123","g")` is not a registry no-op — it
deletes `g`'s membership-index entry. -/
theorem leaveRoom_nonmember_cex :
    ((getRoom rmTwoRooms "ABC123").map Room.users) = some ["h"] ∧
    getUserRoom rmTwoRooms "g" = some "XYZ789" ∧
    getUserRoom (leaveRoom rmTwoRooms "ABC123" "g") "g" = none := by
  decide

/-- **C8 (amended).** `leaveRoom(A, c)` with `c` not in `A`'s member set
leaves every room record unchanged and every other channel's index entry
unchanged, but still deletes `c`'s own index entry (so it is a full no-op
only when `c` has none); `leaveRoom` is idempotent — calling it twice
always equals calling it once. -/
theorem leaveRoom_nonmember (rm : RoomManager) (A c : String) :
    (∀ roomA, getRoom rm A = some roomA → c ∉ roomA.users →
      ((leaveRoom rm A c).rooms = rm.rooms ∧
       getUserRoom (leaveRoom rm A c) c = none ∧
       ∀ d, d ≠ c → getUserRoom (leaveRoom rm A c) d = getUserRoom rm d)) ∧
    leaveRoom (leaveRoom rm A c) A c = leaveRoom rm A c := by
  constructor
  · intro roomA hA hc
    have hAm : mapGet rm.rooms A = some roomA := hA
    have hupd : { roomA with users := setDelete roomA.users c } = roomA := by
      rw [setDelete_of_not_mem _ _ hc]
    have h₁ : leaveRoom rm A c = ⟨rm.rooms, mapDelete rm.userToRoom c⟩ := by
      unfold leaveRoom
      rw [hAm]
      dsimp only
      rw [hupd, mapSet_of_mapGet_eq _ _ _ hAm]
    rw [h₁]
    exact ⟨rfl, mapGet_mapDelete_self .., fun d hd => mapGet_mapDelete_ne _ _ _ hd⟩
  · cases hfound : mapGet rm.rooms A with
    | none =>
        have he : leaveRoom rm A c = rm := by
          unfold leaveRoom
          rw [hfound]
        rw [he, he]
    | some room =>
        have h₁ : leaveRoom rm A c
            = ⟨mapSet rm.rooms A { room with users := setDelete room.users c },
               mapDelete rm.userToRoom c⟩ := by
          unfold leaveRoom
          rw [hfound]
        rw [h₁]
        unfold leaveRoom
        rw [show mapGet (⟨mapSet rm.rooms A { room with users := setDelete room.users c },
              mapDelete rm.userToRoom c⟩ : RoomManager).rooms A
            = some { room with users := setDelete room.users c } from mapGet_mapSet_self ..]
        dsimp only
        rw [setDelete_idem, mapSet_of_mapGet_eq _ _ _ (mapGet_mapSet_self ..),
            mapDelete_of_mapGet_eq_none _ _ (mapGet_mapDelete_self ..)]

/-- Witness for C8 on the concrete two-room registry. -/
theorem leaveRoom_nonmember_witness :
    (leaveRoom rmTwoRooms "ABC123" "g").rooms = rmTwoRooms.rooms ∧
    getUserRoom (leaveRoom rmTwoRooms "ABC123" "g") "h" = getUserRoom rmTwoRooms "h" ∧
    leaveRoom (leaveRoom rmTwoRooms "ABC123" "g") "ABC123" "g"
        = leaveRoom rmTwoRooms "ABC123" "g" := by
  have h := leaveRoom_nonmember rmTwoRooms "ABC123" "g"
  have h₁ := h.1 { id := "ABC123", hostId := "h", users := ["h"],
                   isPlaying := false, timestamp := 0 } (by decide) (by decide)
  exact ⟨h₁.1, h₁.2.2 "h" (by decide), h.2⟩

/-! ### C9: room-id case handling -/

/-- Counterexample to C9: with `ABC123` registered, a `join_room` carrying
`abc123` is rejected with `RoomNotFound` while `ABC123` succeeds, so a
request does not behave like its uppercased form — the server performs no
normalization. -/
theorem case_normalization_cex :
    handleJoinRoom sABC "g" "abc123" "guest"
        = (sABC, [("g", Msg.errorMsg "房间不存在")]) ∧
    getUserRoom (handleJoinRoom sABC "g" "ABC123" "guest").1.manager "g"
        = some "ABC123" := by
  decide

/-- **C9 (amended).** Uppercase normalization happens only in the client:
`Home.handleJoinRoom` issues the join request with the uppercased input,
while the server looks an id up exactly as received — a `join_room` naming
an id that is not literally registered is answered with an error to the
sender and no state change, whatever case-variant of it is registered. -/
theorem case_normalization_client_only (input : String) (s : ServerState)
    (sock username r : String) :
    (∀ target, handleJoinRoomNav input = some target → target = jsToUpper input) ∧
    (getRoom s.manager r = none →
      handleJoinRoom s sock r username
        = (s, [(sock, Msg.errorMsg "房间不存在")])) := by
  constructor
  · intro target ht
    unfold handleJoinRoomNav at ht
    by_cases h : (jsTrim input).length ≠ 6
    · rw [if_pos h] at ht
      exact Option.noConfusion ht
    · rw [if_neg h] at ht
      exact (Option.some.inj ht).symm
  · intro hnone
    unfold handleJoinRoom
    rw [hnone]

/-- Witness for C9 (amended): the client uppercases `abc123`, and the server
rejects the raw lowercase id even though `ABC123` is registered. -/
theorem case_normalization_client_only_witness :
    ("ABC123" : String) = jsToUpper "abc123" ∧
    handleJoinRoom sABC "g" "abc123" "guest"
        = (sABC, [("g", Msg.errorMsg "房间不存在")]) :=
  ⟨(case_normalization_client_only "abc123" sABC "g" "guest" "abc123").1
      "ABC123" (by decide),
   (case_normalization_client_only "abc123" sABC "g" "guest" "abc123").2
      (by decide)⟩

/-! ### C10: chat relay without membership check -/

/-- **C10.** The relay `chat_message` handler checks nothing: a chat from a
connected channel that is not a member of existing room `R` (whose socket.io
membership mirrors the registry member set) is still delivered to every
member of `R`, and the server state is untouched. -/
theorem chat_no_membership_check (s : ServerState) (sock roomId : String)
    (room : Room) (m : ChatMsg)
    (_hroom : getRoom s.manager roomId = some room)
    (hio : ioRoomMembers s roomId = room.users)
    (hnotmem : sock ∉ room.users) :
    handleChatMessage s sock roomId m
      = (s, room.users.map (fun c => (c, Msg.chatMessage m))) := by
  clear _hroom
  unfold handleChatMessage emitToRoomExcept
  rw [hio, setDelete_of_not_mem _ _ hnotmem]

/-- Witness for C10: outsider `x` chats into `ABC123`; both members get it. -/
theorem chat_no_membership_check_witness :
    handleChatMessage sABCg "x" "ABC123" chatFromX
      = (sABCg, [("h", Msg.chatMessage chatFromX), ("g", Msg.chatMessage chatFromX)]) := by
  have h := chat_no_membership_check sABCg "x" "ABC123"
      { id := "ABC123", hostId := "h", users := ["h", "g"],
        isPlaying := false, timestamp := 0 }
      chatFromX (by decide) (by decide) (by decide)
  exact h.trans (by decide)

end SyncCinema
